import Mathlib

set_option linter.unusedVariables false

/-!
Shallow embedding of the teable `AggregationService`
(`src/unnamed/part_000`): statistics value decoding, row-count query
building, field-map construction, and the grouping engine
(limit pre-check, grouped query building, group-point decoding).

External collaborators (`@teable-group/core` helpers, `dayjs`, the
filter/sort compilers of the db provider, the prisma store) are modelled
from the spec where their behaviour matters; each such definition says so
in its doc comment.
-/

/-- A database / JS cell value as it appears in a decoded result row.
`null` also stands for JS `undefined` (both are raw-absent and behave
identically under `===` against other values here, `?.toString() ?? null`
and `?? 0`). `obj` is a structured (JSON) value carrying its JS
`String(...)` rendering. -/
inductive DbVal where
  | null
  | str (s : String)
  | num (n : Int)
  | bool (b : Bool)
  | obj (repr : String)
deriving DecidableEq

/-- JS template-literal rendering used by `id_fieldValue` interpolation. -/
def DbVal.render : DbVal → String
  | DbVal.null => "null"
  | DbVal.str s => s
  | DbVal.num n => toString n
  | DbVal.bool b => toString b
  | DbVal.obj r => r

/-- `DbFieldType` enum from `@teable-group/core` (only the JSON variant is
inspected by this service). -/
inductive DbFieldType where
  | text
  | integer
  | real
  | datetime
  | boolean
  | json
deriving DecidableEq

/-- A field instance as consumed by the service: id, name, storage column
name, storage type, and the field-specific `convertDBValue2CellValue`
conversion (opaque collaborator behaviour, carried as data). -/
structure FieldInstance where
  id : String
  name : String
  dbFieldName : String
  dbFieldType : DbFieldType
  convertDBValue2CellValue : DbVal → DbVal

/-- `GroupPointType` discriminants. -/
inductive GroupPointType where
  | header
  | row
deriving DecidableEq

/-- One element of the flattened group-point sequence (`IGroupPoint`). -/
inductive GroupPoint where
  | header (id : String) (depth : Nat) (value : DbVal)
  | row (count : Nat)

/-- Modelled from the spec: `string2Hash` (a util of this repository that
is not part of the provided source) is only required to be a deterministic
hash of its input string; modelled as a 32-bit folding hash. -/
def string2Hash (s : String) : Nat :=
  s.toList.foldl (fun h c => (h * 31 + c.toNat) % 4294967296) 0

/-- `isObject(item[dbFieldName]) ? String(item[dbFieldName]) : item[dbFieldName]`:
structured values are compared and rendered through their string form. -/
def coerceFieldValue : DbVal → DbVal
  | DbVal.obj r => DbVal.str r
  | v => v

/-- One result row of the grouped query: the `__c` count column plus the
selected group columns, addressed by db field name. -/
structure GroupRow where
  count : Nat
  cells : String → DbVal

/-- The two `let` mutables of `groupDbCollection2GroupPoints`.
`none` models the fresh `Symbol()` sentinel, which is `===`-distinct from
every field value (and from any other `Symbol()`). -/
structure DecodeState where
  firstDbFieldValue : Option DbVal
  secondDbFieldValue : Option DbVal
deriving DecidableEq

/-- The header pushed for `field` at position `index` with coerced value
`fieldValue`. -/
def mkHeaderPoint (field : FieldInstance) (index : Nat) (fieldValue : DbVal) : GroupPoint :=
  GroupPoint.header (toString (string2Hash (field.id ++ "_" ++ fieldValue.render)))
    index (field.convertDBValue2CellValue fieldValue)

/-- The body of the inner `groupFields.forEach((field, index) => ...)` for
one field: either emit a header (and update the run-length state) or
suppress it (`return`). -/
def stepField (row : GroupRow) (field : FieldInstance) (index : Nat) (st : DecodeState) :
    Option GroupPoint × DecodeState :=
  let fieldValue := coerceFieldValue (row.cells field.dbFieldName)
  if index = 0 then
    if st.firstDbFieldValue = some fieldValue then (none, st)
    else
      (some (mkHeaderPoint field index fieldValue),
        { firstDbFieldValue := some fieldValue, secondDbFieldValue := none })
  else if index = 1 then
    if st.secondDbFieldValue = some fieldValue then (none, st)
    else
      (some (mkHeaderPoint field index fieldValue),
        { st with secondDbFieldValue := some fieldValue })
  else
    (some (mkHeaderPoint field index fieldValue), st)

/-- The inner `forEach` over the (index, field) pairs of one row. -/
def processFields (row : GroupRow) :
    List (Nat × FieldInstance) → DecodeState → List GroupPoint × DecodeState
  | [], st => ([], st)
  | (index, field) :: rest, st =>
    let step := stepField row field index st
    let recRes := processFields row rest step.2
    (step.1.toList ++ recRes.1, recRes.2)

/-- The outer `groupResult.forEach`: per row, process every group field in
order, then push the `Row` marker carrying the row's `__c` count. -/
def processRows (groupFields : List FieldInstance) :
    List GroupRow → DecodeState → List GroupPoint
  | [], _ => []
  | row :: rest, st =>
    let res := processFields row groupFields.enum st
    res.1 ++ [GroupPoint.row row.count] ++ processRows groupFields rest res.2

/-- `groupDbCollection2GroupPoints`: decode the ordered grouped result set
into the flat header/row group-point sequence, starting from fresh
`Symbol()` sentinels at both tracked depths. -/
def groupDbCollection2GroupPoints (groupResult : List GroupRow)
    (groupFields : List FieldInstance) : List GroupPoint :=
  processRows groupFields groupResult ⟨none, none⟩

/-- Id-less shape of a group point, as the spec writes them:
`Header(depth, value)` / `Row(count)`. -/
inductive PointShape where
  | header (depth : Nat) (value : DbVal)
  | row (count : Nat)
deriving DecidableEq

/-- Forget the hash id of a group point. -/
def shapeOf : GroupPoint → PointShape
  | GroupPoint.header _ depth value => PointShape.header depth value
  | GroupPoint.row count => PointShape.row count

/-- `StatisticsFunc` enum from `@teable-group/core`. The five percent
variants and `dateRangeOfMonths` are named in the source; the remaining
members are modelled from the spec's statistic-function catalog
(count/empty/filled/unique/max/min/sum/average/checked/unchecked/date
range functions). -/
inductive StatisticsFunc where
  | count
  | empty
  | filled
  | unique
  | max
  | min
  | sum
  | average
  | checked
  | unChecked
  | percentEmpty
  | percentFilled
  | percentUnique
  | percentChecked
  | percentUnChecked
  | earliestDate
  | latestDate
  | dateRangeOfDays
  | dateRangeOfMonths
  | totalAttachmentSize
deriving DecidableEq

/-- A raw aggregation scalar as returned by the store (`unknown` in the
source). `null` also stands for JS `undefined` (raw-absent). `num` covers
JS `number` and `bigint`; `date` carries its `toISOString()` rendering. -/
inductive RawVal where
  | null
  | num (n : Int)
  | str (s : String)
  | date (iso : String)
  | bool (b : Bool)
deriving DecidableEq

/-- A converted statistic value (`number | string | null`). -/
inductive ConvVal where
  | null
  | num (n : Int)
  | str (s : String)
deriving DecidableEq

/-- `convertValueToNumberOrString`: numbers/bigints stay numeric, dates
become their ISO string, anything else goes through `?.toString() ?? null`
(so a raw-absent value becomes `null`). -/
def convertValueToNumberOrString : RawVal → ConvVal
  | RawVal.num n => ConvVal.num n
  | RawVal.date iso => ConvVal.str iso
  | RawVal.null => ConvVal.null
  | RawVal.str s => ConvVal.str s
  | RawVal.bool b => ConvVal.str (toString b)

/-- JS `String.prototype.split` with a single-character separator, on the
character list. An empty input yields `[[]]`, and a trailing separator
yields a trailing empty part, exactly as in JS. -/
def splitOnChar (sep : Char) : List Char → List (List Char)
  | [] => [[]]
  | c :: rest =>
    let r := splitOnChar sep rest
    if c = sep then [] :: r
    else
      match r with
      | [] => [[c]]
      | h :: t => (c :: h) :: t

/-- JS `s.split(sep)` for a one-character separator. -/
def jsSplit (s : String) (sep : Char) : List String :=
  (splitOnChar sep s.toList).map List.asString

/-- Decimal digit parser: `some n` only when the input is a non-empty
all-digit string. -/
def parseDigits : List Char → Option Nat → Option Nat
  | [], acc => acc
  | c :: rest, acc =>
    if c.isDigit then
      parseDigits rest (some ((acc.getD 0) * 10 + (c.toNat - 48)))
    else none

/-- Parse a decimal natural number. -/
def jsParseNat (s : String) : Option Nat := parseDigits s.toList none

/-- Parse a `YYYY-MM-DD` date string into (year, month, day). -/
def parseIsoDate (s : String) : Option (Nat × Nat × Nat) :=
  match jsSplit s '-' with
  | [y, m, d] =>
    match jsParseNat y, jsParseNat m, jsParseNat d with
    | some yn, some mn, some dn => some (yn, mn, dn)
    | _, _, _ => none
  | _ => none

/-- Modelled from the spec: `dayjs(maxTime).diff(minTime, 'month')`
(external `dayjs` library), "the integer month-difference between max and
min": the whole-month difference of the calendar months, decremented when
the max day-of-month has not yet reached the min day-of-month. Unparsable
input yields 0. -/
def dayjsDiffMonths (maxTime minTime : String) : Int :=
  match parseIsoDate maxTime, parseIsoDate minTime with
  | some (y2, m2, d2), some (y1, m1, d1) =>
    let whole : Int := ((y2 : Int) * 12 + (m2 : Int)) - ((y1 : Int) * 12 + (m1 : Int))
    if d2 < d1 then whole - 1 else whole
  | _, _ => 0

/-- `calculateDateRangeOfMonths`: split the raw `"max,min"` pair on the
comma; if either side is missing (absent or the empty string, both falsy
in JS) the result is 0, otherwise the dayjs month difference. -/
def calculateDateRangeOfMonths (currentValue : String) : Int :=
  let parts := jsSplit currentValue ','
  let maxTime := parts.getD 0 ""
  let minTime := parts.getD 1 ""
  if maxTime = "" ∨ minTime = "" then 0 else dayjsDiffMonths maxTime minTime

/-- The `defaultToZero` list of `formatConvertValue`: the five percent
statistics. -/
def defaultToZero : List StatisticsFunc :=
  [StatisticsFunc.percentEmpty, StatisticsFunc.percentFilled,
   StatisticsFunc.percentUnique, StatisticsFunc.percentChecked,
   StatisticsFunc.percentUnChecked]

/-- `formatConvertValue`: generic conversion, then the date-range-in-months
override (only when the raw value is a string), then the percent-*
null-to-zero coercion (`convertValue ?? 0`). -/
def formatConvertValue (currentValue : RawVal) (aggFunc : Option StatisticsFunc) : ConvVal :=
  let convertValue := convertValueToNumberOrString currentValue
  match aggFunc with
  | none => convertValue
  | some aggFunc =>
    let convertValue :=
      if aggFunc = StatisticsFunc.dateRangeOfMonths then
        match currentValue with
        | RawVal.str s => ConvVal.num (calculateDateRangeOfMonths s)
        | _ => convertValue
      else convertValue
    if aggFunc ∈ defaultToZero then
      match convertValue with
      | ConvVal.null => ConvVal.num 0
      | v => v
    else convertValue

/-- An opaque filter expression tree (`IFilter`), passed through untouched
to the filter compiler. `and` is only produced by the merge rule. -/
inductive FilterTree where
  | leaf (s : String)
  | and (a b : FilterTree)
deriving DecidableEq

/-- Modelled from the spec: `mergeWithDefaultFilter` from
`@teable-group/core` — AND of both filters when both exist, the present
one when only one exists, none when neither exists. -/
def mergeWithDefaultFilter : Option FilterTree → Option FilterTree → Option FilterTree
  | some base, some override => some (FilterTree.and base override)
  | some base, none => some base
  | none, some override => some override
  | none, none => none

/-- The knex query-builder state touched by this service: the table, the
WHERE predicates appended by the filter/candidate stages, plain selects,
`count` aggregates (alias, expression), `countDistinct` aggregates, group,
having and order clauses, and limit/offset. -/
structure QueryBuilder where
  table : String
  wheres : List FilterTree
  selects : List String
  counters : List (String × String)
  countDistincts : List String
  groups : List String
  havings : List String
  orders : List String
  limit : Option Nat
  offset : Option Nat
deriving DecidableEq

/-- `knex(dbTableName)`: a fresh builder over the table. -/
def knexTable (dbTableName : String) : QueryBuilder :=
  ⟨dbTableName, [], [], [], [], [], [], [], none, none⟩

/-- Modelled from the spec: the Filter Compiler
(`dbProvider.filterQuery(...).appendQueryBuilder()`) mutates the
in-progress query by appending WHERE-equivalent predicates for the filter
tree. -/
def filterQueryApply (queryBuilder : QueryBuilder) (filter : FilterTree) : QueryBuilder :=
  { queryBuilder with wheres := queryBuilder.wheres ++ [filter] }

/-- `getFieldsData`'s `fieldInstanceMap` reduce: for each field in list
order, write the field under its id, then under its name; later writes win. -/
def fieldInstanceMapOf (fieldInstances : List FieldInstance) : String → Option FieldInstance :=
  fieldInstances.foldl
    (fun map field => fun key =>
      if key = field.name then some field
      else if key = field.id then some field
      else map key)
    (fun _ => none)

/-- `getRowCount`'s builder surgery: clear selects, counters, group,
having, order, limit and offset, then add the single `count({count: '*'})`
aggregate. (The execution itself is modelled by the caller's store
function.) -/
def getRowCount (queryBuilder : QueryBuilder) : QueryBuilder :=
  let cleared := { queryBuilder with
    selects := [], counters := [], countDistincts := [],
    groups := [], havings := [], orders := [],
    limit := none, offset := none }
  { cleared with counters := cleared.counters ++ [("count", "*")] }

/-- `Number(rawRowCountData[0]?.count ?? 0)`: the first result row's
optional `count` column, defaulting to 0 when the row or the column is
absent. -/
def decodeRowCount (rows : List (Option Nat)) : Nat :=
  ((rows.head?).bind id).getD 0

/-- A store query actually executed through `prisma.$queryRawUnsafe`,
tagged by which generated statement it was. -/
inductive ExecutedQuery where
  | distinctCheck (qb : QueryBuilder)
  | grouped (qb : QueryBuilder)
  | rowCount (qb : QueryBuilder)
deriving DecidableEq

/-- `IQueryBaseRo` as consumed by `performRowCount`. The two link modes are
opaque specs carried as strings. -/
structure QueryBaseRo where
  viewId : Option String
  filter : Option FilterTree
  filterLinkCellCandidate : Option String
  filterLinkCellSelected : Option String

/-- The collaborators of `performRowCount`, scoped to one request: the
view store (stored filter of a view), the storage-table resolver, the
Selected-Id Resolver (`recordService.getLinkSelectedRecordIds`), the
Link-Candidate Narrower (`recordService.buildLinkCandidateQuery`), and the
store execution of a count statement (rows of an optional `count`
column). -/
structure RowCountEnv where
  viewFilter : String → String → Option FilterTree
  dbTableName : String → String
  linkSelectedIds : String → List String
  linkCandidateApply : QueryBuilder → String → String → QueryBuilder
  runCountQuery : QueryBuilder → List (Option Nat)

/-- `performRowCount`: resolve the effective filter from the view's stored
filter and the caller filter; when `filterLinkCellSelected` is supplied,
return the length of the resolved selected-id list with no storage-table
query; otherwise build the filtered (and optionally candidate-narrowed)
builder, strip it to `COUNT(*)` via `getRowCount`, execute it, and decode.
The second component lists the storage-table queries executed. -/
def performRowCount (env : RowCountEnv) (tableId : String) (queryRo : QueryBaseRo) :
    Nat × List ExecutedQuery :=
  let viewRawFilter :=
    match queryRo.viewId with
    | some viewId => env.viewFilter tableId viewId
    | none => none
  let filter := mergeWithDefaultFilter viewRawFilter queryRo.filter
  let dbTableName := env.dbTableName tableId
  match queryRo.filterLinkCellSelected with
  | some filterLinkCellSelected =>
    ((env.linkSelectedIds filterLinkCellSelected).length, [])
  | none =>
    let queryBuilder := knexTable dbTableName
    let queryBuilder :=
      match filter with
      | some f => filterQueryApply queryBuilder f
      | none => queryBuilder
    let queryBuilder :=
      match queryRo.filterLinkCellCandidate with
      | some candidate => env.linkCandidateApply queryBuilder tableId candidate
      | none => queryBuilder
    let rowCountBuilder := getRowCount queryBuilder
    (decodeRowCount (env.runCountQuery rowCountBuilder),
      [ExecutedQuery.rowCount rowCountBuilder])

/-- One group-by key: field id plus sort direction. -/
structure GroupByItem where
  fieldId : String
  order : String
deriving DecidableEq

/-- `IGroupPointsRo`: the optional request object of `getGroupPoints`. -/
structure GroupPointsRo where
  viewId : Option String
  groupBy : Option (List GroupByItem)
  filter : Option FilterTree

/-- Modelled from the spec: `parseGroup` from `@teable-group/core`
parses/validates the group-by key list; on an already-parsed key list it
is the identity (the claims only condition on its output being absent,
empty or non-empty). -/
def parseGroup (extraGroupBy : Option (List GroupByItem)) : Option (List GroupByItem) :=
  extraGroupBy

/-- The column expression used for a group field both in the pre-check and
in the grouped query: JSON columns are cast to text, others referenced
directly. -/
def columnExprOf (field : FieldInstance) : String :=
  if field.dbFieldType = DbFieldType.json
  then "CAST(" ++ field.dbFieldName ++ " as text)"
  else field.dbFieldName

/-- `checkGroupingOverLimit`'s `fieldIds.forEach`: add one
`countDistinct` aggregate per resolvable group field (missing fields are
skipped). -/
def addDistinctCounters (fieldIds : List String)
    (fieldInstanceMap : String → Option FieldInstance)
    (queryBuilder : QueryBuilder) : QueryBuilder :=
  fieldIds.foldl
    (fun qb fieldId =>
      match fieldInstanceMap fieldId with
      | none => qb
      | some field =>
        { qb with countDistincts := qb.countDistincts ++ [columnExprOf field] })
    queryBuilder

/-- Modelled from the spec: the Sort Compiler
(`dbProvider.sortQuery(...).appendSortBuilder()`) appends one order clause
per group-by key, in key order. -/
def sortQueryApply (queryBuilder : QueryBuilder) (groupBy : List GroupByItem) : QueryBuilder :=
  { queryBuilder with orders := queryBuilder.orders ++ groupBy.map GroupByItem.fieldId }

/-- The `groupFieldIds.forEach` of `getGroupPoints`: select each
resolvable group field's column expression and group by it. -/
def addGroupSelects (fieldIds : List String)
    (fieldInstanceMap : String → Option FieldInstance)
    (queryBuilder : QueryBuilder) : QueryBuilder :=
  fieldIds.foldl
    (fun qb fieldId =>
      match fieldInstanceMap fieldId with
      | none => qb
      | some field =>
        { qb with selects := qb.selects ++ [columnExprOf field],
                  groups := qb.groups ++ [columnExprOf field] })
    queryBuilder

/-- The collaborators of `getGroupPoints`, scoped to one request: view
store, field catalog, storage-table resolver, the configured
`maxGroupPoints` ceiling, and the store execution of the pre-check
(distinct-count scalar) and of the grouped query (ordered result rows). -/
structure GroupEnv where
  maxGroupPoints : Nat
  viewFilter : String → String → Option FilterTree
  fields : String → List FieldInstance
  dbTableName : String → String
  runDistinctQuery : QueryBuilder → Nat
  runGroupQuery : QueryBuilder → List GroupRow

/-- The filtered base builder shared by the grouped query and the
pre-check: `knex(dbTableName)` with the merged view/override filter
applied (when present). -/
def groupBaseBuilder (env : GroupEnv) (tableId viewId : String)
    (query : Option GroupPointsRo) : QueryBuilder :=
  let mergedFilter :=
    mergeWithDefaultFilter (env.viewFilter tableId viewId) (query.bind GroupPointsRo.filter)
  match mergedFilter with
  | some f => filterQueryApply (knexTable (env.dbTableName tableId)) f
  | none => knexTable (env.dbTableName tableId)

/-- The pre-check (distinct-count) builder handed to
`checkGroupingOverLimit`: the filtered base plus one `countDistinct` per
group field. -/
def distinctBuilderFor (env : GroupEnv) (tableId viewId : String)
    (query : Option GroupPointsRo) (groupBy : List GroupByItem) : QueryBuilder :=
  addDistinctCounters (groupBy.map GroupByItem.fieldId)
    (fieldInstanceMapOf (env.fields tableId))
    (groupBaseBuilder env tableId viewId query)

/-- The grouped-query builder: the filtered base, sorted per the group-by
keys, with the `__c` row-count aggregate and one select+group per group
field. -/
def groupedBuilderFor (env : GroupEnv) (tableId viewId : String)
    (query : Option GroupPointsRo) (groupBy : List GroupByItem) : QueryBuilder :=
  let qb := sortQueryApply (groupBaseBuilder env tableId viewId query) groupBy
  let qb := { qb with counters := qb.counters ++ [("__c", "*")] }
  addGroupSelects (groupBy.map GroupByItem.fieldId)
    (fieldInstanceMapOf (env.fields tableId)) qb

/-- The error thrown by `getGroupPoints` when the pre-check exceeds the
ceiling (`HttpException` with status `PAYLOAD_TOO_LARGE`). -/
inductive HttpError where
  | payloadTooLarge (message : String)
deriving DecidableEq

/-- The message of the PayloadTooLarge exception. -/
def groupingOverLimitMessage : String :=
  "Grouping results exceed limit, please adjust grouping conditions to reduce the number of groups."

/-- `getGroupPoints`: null on a missing view id or an absent/empty parsed
group-by list; otherwise run the distinct-count pre-check, fail with
PayloadTooLarge when the count exceeds `maxGroupPoints`, and only
otherwise build, execute and decode the grouped query. The second
component lists the store queries executed, in order. (The source builds
`groupFields` by an unchecked map lookup whose `undefined` entries would
fault the decode; resolvable fields are taken here.) -/
def getGroupPoints (env : GroupEnv) (tableId : String) (query : Option GroupPointsRo) :
    Except HttpError (Option (List GroupPoint)) × List ExecutedQuery :=
  match query.bind GroupPointsRo.viewId with
  | none => (Except.ok none, [])
  | some viewId =>
    match parseGroup (query.bind GroupPointsRo.groupBy) with
    | none => (Except.ok none, [])
    | some [] => (Except.ok none, [])
    | some (g :: gs) =>
      let groupBy := g :: gs
      let distinctQueryBuilder := distinctBuilderFor env tableId viewId query groupBy
      let distinctCount := env.runDistinctQuery distinctQueryBuilder
      if env.maxGroupPoints < distinctCount then
        (Except.error (HttpError.payloadTooLarge groupingOverLimitMessage),
          [ExecutedQuery.distinctCheck distinctQueryBuilder])
      else
        let queryBuilder := groupedBuilderFor env tableId viewId query groupBy
        let result := env.runGroupQuery queryBuilder
        let groupFields :=
          (groupBy.map GroupByItem.fieldId).filterMap (fieldInstanceMapOf (env.fields tableId))
        (Except.ok (some (groupDbCollection2GroupPoints result groupFields)),
          [ExecutedQuery.distinctCheck distinctQueryBuilder,
           ExecutedQuery.grouped queryBuilder])

/-- Pairwise-distinct consecutive values: what the ordered output of a
single-field grouped query guarantees for its group column. -/
def consecDistinct : List DbVal → Bool
  | a :: b :: rest => if a = b then false else consecDistinct (b :: rest)
  | _ => true

/-- The coerced value of `row` at `field`'s storage column. -/
def rowValAt (field : FieldInstance) (row : GroupRow) : DbVal :=
  coerceFieldValue (row.cells field.dbFieldName)

/-- Whether a group point is a Header at depth `d`. -/
def isHeaderAtDepth (d : Nat) : GroupPoint → Bool
  | GroupPoint.header _ depth _ => depth == d
  | GroupPoint.row _ => false

/-- Number of Headers at depth `d` in a group-point sequence. -/
def countHeadersAtDepth (points : List GroupPoint) (d : Nat) : Nat :=
  points.countP (isHeaderAtDepth d)

/-- Identity cell conversion, used by the concrete example fields. -/
def idConvert : DbVal → DbVal := fun v => v

/-- Example field grouped at depth 0 in the two-level examples. -/
def categoryField : FieldInstance :=
  ⟨"fldCat", "Category", "category", DbFieldType.text, idConvert⟩

/-- Example field grouped at depth 1 (and alone in the one-level example). -/
def statusField : FieldInstance :=
  ⟨"fldStat", "Status", "status", DbFieldType.text, idConvert⟩

/-- Example field grouped at depth 2 in the three-level example. -/
def priorityField : FieldInstance :=
  ⟨"fldPrio", "Priority", "priority", DbFieldType.text, idConvert⟩

/-- A single-level grouped result row with a status value and a count. -/
def rowOf1 (status : String) (count : Nat) : GroupRow :=
  ⟨count, fun name => if name = "status" then DbVal.str status else DbVal.null⟩

/-- A two-level grouped result row with category/status values and a count. -/
def rowOf2 (category status : String) (count : Nat) : GroupRow :=
  ⟨count, fun name =>
    if name = "category" then DbVal.str category
    else if name = "status" then DbVal.str status
    else DbVal.null⟩

/-- A three-level grouped result row. -/
def rowOf3 (category status priority : String) (count : Nat) : GroupRow :=
  ⟨count, fun name =>
    if name = "category" then DbVal.str category
    else if name = "status" then DbVal.str status
    else if name = "priority" then DbVal.str priority
    else DbVal.null⟩

/-- The spec's two-level example result set: (X,A,2), (X,B,1), (Y,A,1). -/
def rowsC2 : List GroupRow := [rowOf2 "X" "A" 2, rowOf2 "X" "B" 1, rowOf2 "Y" "A" 1]

/-- The spec's single-level example result set: (A,2), (B,1). -/
def rowsC3 : List GroupRow := [rowOf1 "A" 2, rowOf1 "B" 1]

/-- Three-level example rows whose depth-2 value is unchanged across rows. -/
def rowsC10 : List GroupRow := [rowOf3 "X" "A" "P" 1, rowOf3 "X" "B" "P" 1]

/-- Example group field for the grouping-engine environments. -/
def exampleGroupField : FieldInstance :=
  ⟨"fld1", "Field One", "col1", DbFieldType.text, idConvert⟩

/-- A grouping environment whose pre-check always reports 10 distinct
combinations against a ceiling of 3 (over limit). -/
def envOverLimit : GroupEnv :=
  ⟨3, fun _ _ => none, fun _ => [exampleGroupField], fun _ => "tbl_x",
    fun _ => 10, fun _ => []⟩

/-- A grouping request for view `viw1` grouped by `fld1`. -/
def queryOverLimit : Option GroupPointsRo :=
  some ⟨some "viw1", some [⟨"fld1", "asc"⟩], none⟩

/-- A grouping environment for the no-view / empty-group-by example. -/
def envNoGroups : GroupEnv :=
  ⟨100, fun _ _ => none, fun _ => [exampleGroupField], fun _ => "tbl_y",
    fun _ => 0, fun _ => []⟩

/-- A row-count environment whose Selected-Id Resolver returns five ids. -/
def envSelected : RowCountEnv :=
  ⟨fun _ _ => none, fun _ => "tbl_z",
    fun _ => ["rec1", "rec2", "rec3", "rec4", "rec5"],
    fun qb _ _ => qb, fun _ => []⟩

/-- A row-count request carrying only a `filterLinkCellSelected` spec. -/
def queryRoSelected : QueryBaseRo := ⟨none, none, none, some "selSpec"⟩

/-- Claim C4: for each of the five percent statistic functions,
`formatConvertValue` maps an absent/null raw value to the number 0; for
every other statistic function, an absent raw input decodes to an absent
value. -/
theorem formatConvertValue_absent (f : StatisticsFunc) :
    formatConvertValue RawVal.null (some f) =
      if f ∈ defaultToZero then ConvVal.num 0 else ConvVal.null := by
  cases f <;> rfl

/-- Claim C5: for the date-range-in-months statistic, decoding the
comma-joined pair "2024-03-15,2024-01-01" yields the month difference 2,
and the result is 0 whenever either side of the pair is missing (shown
both in general, over the split parts, and on concrete one-sided
inputs). -/
theorem dateRangeOfMonths_decode :
    formatConvertValue (RawVal.str "2024-03-15,2024-01-01")
        (some StatisticsFunc.dateRangeOfMonths) = ConvVal.num 2
    ∧ (∀ s : String,
        (jsSplit s ',').getD 0 "" = "" ∨ (jsSplit s ',').getD 1 "" = "" →
        calculateDateRangeOfMonths s = 0)
    ∧ formatConvertValue (RawVal.str "2024-03-15,")
        (some StatisticsFunc.dateRangeOfMonths) = ConvVal.num 0
    ∧ formatConvertValue (RawVal.str ",2024-01-01")
        (some StatisticsFunc.dateRangeOfMonths) = ConvVal.num 0 := by
  refine ⟨by decide, ?_, by decide, by decide⟩
  intro s h
  unfold calculateDateRangeOfMonths
  rcases h with h | h <;> simp only [List.getD_eq_getElem?_getD] at h <;> simp [h]

/-- Witness for C5: decoding a pair with no comma (hence a missing min
side) yields 0. -/
theorem dateRangeOfMonths_decode_witness :
    calculateDateRangeOfMonths "2024-03-15" = 0 :=
  dateRangeOfMonths_decode.2.1 "2024-03-15" (Or.inr (by decide))

/-- Claim C7: for every query builder, whatever select, count, group,
having, order, limit or offset clauses the filter/candidate stages
attached, `getRowCount` strips them all, leaving `COUNT(*)` as the only
projection (WHERE predicates and the table are preserved); the decoded
result is a natural number (hence non-negative) and an absent result row
decodes to rowCount 0. -/
theorem getRowCount_strips_clauses (qb : QueryBuilder) :
    (getRowCount qb).selects = []
    ∧ (getRowCount qb).counters = [("count", "*")]
    ∧ (getRowCount qb).countDistincts = []
    ∧ (getRowCount qb).groups = []
    ∧ (getRowCount qb).havings = []
    ∧ (getRowCount qb).orders = []
    ∧ (getRowCount qb).limit = none
    ∧ (getRowCount qb).offset = none
    ∧ (getRowCount qb).wheres = qb.wheres
    ∧ (getRowCount qb).table = qb.table
    ∧ decodeRowCount [] = 0
    ∧ (∀ rows : List (Option Nat), 0 ≤ decodeRowCount rows) :=
  ⟨rfl, rfl, rfl, rfl, rfl, rfl, rfl, rfl, rfl, rfl, rfl, fun _ => Nat.zero_le _⟩

/-- Claim C8: building the shared field lookup map inserts each field
under its id first and then under its name, so collisions resolve
last-write-wins in insertion order; in particular a field whose name
equals an earlier field's id overwrites that id entry. -/
theorem fieldInstanceMap_last_write_wins :
    (∀ (fieldInstances : List FieldInstance) (f : FieldInstance),
        fieldInstanceMapOf (fieldInstances ++ [f]) f.name = some f)
    ∧ (∀ (fieldInstances : List FieldInstance) (a b : FieldInstance),
        b.name = a.id →
        fieldInstanceMapOf (fieldInstances ++ [a, b]) a.id = some b) := by
  constructor
  · intro fieldInstances f
    unfold fieldInstanceMapOf
    rw [List.foldl_append]
    simp
  · intro fieldInstances a b hname
    unfold fieldInstanceMapOf
    rw [List.foldl_append]
    simp [hname]

/-- Example field whose id collides with another field's name. -/
def fieldAlpha : FieldInstance := ⟨"fldA", "Alpha", "col_a", DbFieldType.text, idConvert⟩

/-- Example field whose name equals `fieldAlpha`'s id. -/
def fieldBeta : FieldInstance := ⟨"fldB", "fldA", "col_b", DbFieldType.text, idConvert⟩

/-- Witness for C8: with `fieldBeta.name = fieldAlpha.id`, the lookup of
that key resolves to `fieldBeta` (the name mapping overwrote the id
entry). -/
theorem fieldInstanceMap_last_write_wins_witness :
    fieldInstanceMapOf [fieldAlpha, fieldBeta] "fldA" = some fieldBeta :=
  fieldInstanceMap_last_write_wins.2 [] fieldAlpha fieldBeta rfl

/-- Claim C6: whenever `filterLinkCellSelected` is supplied,
`performRowCount` returns the length of the externally supplied
selected-id list as the rowCount and executes no count query over the
storage table. -/
theorem performRowCount_selected (env : RowCountEnv) (tableId : String)
    (queryRo : QueryBaseRo) (sel : String)
    (hsel : queryRo.filterLinkCellSelected = some sel) :
    performRowCount env tableId queryRo = ((env.linkSelectedIds sel).length, []) := by
  simp only [performRowCount, hsel]

/-- Witness for C6: a selection resolving to five ids yields rowCount 5
with no executed storage query. -/
theorem performRowCount_selected_witness :
    performRowCount envSelected "tbl1" queryRoSelected = (5, []) :=
  performRowCount_selected envSelected "tbl1" queryRoSelected "selSpec" rfl

/-- Claim C9: `getGroupPoints` returns null, raises no error and issues no
store query whenever the view id is absent or the parsed group-by key
list is absent or empty. -/
theorem getGroupPoints_no_groups (env : GroupEnv) (tableId : String)
    (query : Option GroupPointsRo)
    (h : query.bind GroupPointsRo.viewId = none
      ∨ parseGroup (query.bind GroupPointsRo.groupBy) = none
      ∨ parseGroup (query.bind GroupPointsRo.groupBy) = some []) :
    getGroupPoints env tableId query = (Except.ok none, []) := by
  cases hv : query.bind GroupPointsRo.viewId with
  | none => simp [getGroupPoints, hv]
  | some viewId =>
    rcases h with h | h | h
    · rw [hv] at h; exact absurd h (by simp)
    · simp [getGroupPoints, hv, h]
    · simp [getGroupPoints, hv, h]

/-- Witness for C9: an absent request object (hence no view id) yields a
null result and an empty executed-query list. -/
theorem getGroupPoints_no_groups_witness :
    getGroupPoints envNoGroups "tbl2" none = (Except.ok none, []) :=
  getGroupPoints_no_groups envNoGroups "tbl2" none (Or.inl rfl)

/-- Claim C1: when the distinct-combination pre-check count exceeds the
configured `maxGroupPoints` ceiling, `getGroupPoints` fails with a
PayloadTooLarge error and the grouped query is never built or executed:
the executed-query list is exactly the one pre-check execution. -/
theorem getGroupPoints_over_limit (env : GroupEnv) (tableId : String)
    (query : Option GroupPointsRo) (viewId : String)
    (g : GroupByItem) (gs : List GroupByItem)
    (hview : query.bind GroupPointsRo.viewId = some viewId)
    (hgroup : parseGroup (query.bind GroupPointsRo.groupBy) = some (g :: gs))
    (hover : env.maxGroupPoints <
      env.runDistinctQuery (distinctBuilderFor env tableId viewId query (g :: gs))) :
    getGroupPoints env tableId query =
      (Except.error (HttpError.payloadTooLarge groupingOverLimitMessage),
        [ExecutedQuery.distinctCheck (distinctBuilderFor env tableId viewId query (g :: gs))]) := by
  simp only [getGroupPoints, hview, hgroup]
  rw [if_pos hover]

/-- Witness for C1: with a ceiling of 3 and a pre-check reporting 10
distinct combinations, the call fails with PayloadTooLarge after exactly
the one pre-check execution. -/
theorem getGroupPoints_over_limit_witness :
    getGroupPoints envOverLimit "table1" queryOverLimit =
      (Except.error (HttpError.payloadTooLarge groupingOverLimitMessage),
        [ExecutedQuery.distinctCheck
          (distinctBuilderFor envOverLimit "table1" "viw1" queryOverLimit [⟨"fld1", "asc"⟩])]) :=
  getGroupPoints_over_limit envOverLimit "table1" queryOverLimit "viw1"
    ⟨"fld1", "asc"⟩ [] rfl rfl (by decide)

/-- Claim C2: in a two-level decode, whenever the depth-0 value changes
(relative to the run-length state), a fresh depth-1 Header is emitted even
if the depth-1 value equals the previously seen depth-1 value; on the
spec's example rows (X,A,2), (X,B,1), (Y,A,1) the decode is
Header(0,X), Header(1,A), Row(2), Header(1,B), Row(1), Header(0,Y),
Header(1,A), Row(1). -/
theorem twoLevel_depth1_reset :
    (∀ (f0 f1 : FieldInstance) (row : GroupRow) (st : DecodeState),
        st.firstDbFieldValue ≠ some (rowValAt f0 row) →
        (processFields row [(0, f0), (1, f1)] st).1 =
          [mkHeaderPoint f0 0 (rowValAt f0 row), mkHeaderPoint f1 1 (rowValAt f1 row)])
    ∧ (groupDbCollection2GroupPoints rowsC2 [categoryField, statusField]).map shapeOf =
        [PointShape.header 0 (DbVal.str "X"), PointShape.header 1 (DbVal.str "A"),
         PointShape.row 2,
         PointShape.header 1 (DbVal.str "B"), PointShape.row 1,
         PointShape.header 0 (DbVal.str "Y"), PointShape.header 1 (DbVal.str "A"),
         PointShape.row 1] := by
  constructor
  · intro f0 f1 row st h
    simp [processFields, stepField, rowValAt] at h ⊢
    simp [h]
  · decide

/-- Witness for C2: a row whose depth-0 value differs from the last seen
one emits headers at depth 0 and depth 1 although the depth-1 value "A"
equals the one recorded in the incoming state. -/
theorem twoLevel_depth1_reset_witness :
    (processFields (rowOf2 "X" "A" 2) [(0, categoryField), (1, statusField)]
        ⟨some (DbVal.str "W"), some (DbVal.str "A")⟩).1 =
      [mkHeaderPoint categoryField 0 (rowValAt categoryField (rowOf2 "X" "A" 2)),
       mkHeaderPoint statusField 1 (rowValAt statusField (rowOf2 "X" "A" 2))] :=
  twoLevel_depth1_reset.1 categoryField statusField (rowOf2 "X" "A" 2)
    ⟨some (DbVal.str "W"), some (DbVal.str "A")⟩ (by decide)

/-- Auxiliary for C3: processing a single-field result set whose
consecutive values are pairwise distinct, from any state whose last-seen
depth-0 value differs from the first row's value, emits exactly one header
and one row marker per result row. -/
theorem processRows_single_runs (field : FieldInstance) :
    ∀ (rows : List GroupRow) (st : DecodeState),
      consecDistinct (rows.map (rowValAt field)) = true →
      (∀ row rest, rows = row :: rest →
        st.firstDbFieldValue ≠ some (rowValAt field row)) →
      processRows [field] rows st =
        rows.flatMap (fun row =>
          [mkHeaderPoint field 0 (rowValAt field row), GroupPoint.row row.count]) := by
  intro rows
  induction rows with
  | nil => intro st hchain hfirst; rfl
  | cons row rest ih =>
    intro st hchain hfirst
    have hne : st.firstDbFieldValue ≠ some (rowValAt field row) := hfirst row rest rfl
    have henum : ([field] : List FieldInstance).enum = [(0, field)] := rfl
    have hstep : processRows [field] (row :: rest) st =
        [mkHeaderPoint field 0 (rowValAt field row), GroupPoint.row row.count] ++
          processRows [field] rest ⟨some (rowValAt field row), none⟩ := by
      simp only [processRows, henum, processFields, stepField, rowValAt] at hne ⊢
      simp [hne]
    rw [hstep]
    cases rest with
    | nil => rfl
    | cons row2 rest2 =>
      have hsplit : rowValAt field row ≠ rowValAt field row2 ∧
          consecDistinct ((row2 :: rest2).map (rowValAt field)) = true := by
        by_cases heq : rowValAt field row = rowValAt field row2
        · rw [List.map_cons, List.map_cons] at hchain
          simp [consecDistinct, heq] at hchain
        · refine ⟨heq, ?_⟩
          rw [List.map_cons, List.map_cons] at hchain
          simpa [consecDistinct, heq] using hchain
      rw [ih ⟨some (rowValAt field row), none⟩ hsplit.2 ?_]
      · simp
      · intro r rst hr
        injection hr with hr1 hr2
        subst hr1
        intro hcontra
        exact hsplit.1 (Option.some.inj hcontra)

/-- Claim C3: for every single-level group-by over ordered grouped result
rows (consecutive grouped values distinct, as a grouped query guarantees),
the decode emits exactly one depth-0 Header per row-run followed by that
run's Row marker; on the spec's example, rows (A,2), (B,1) decode to
Header(0,A), Row(2), Header(0,B), Row(1). -/
theorem singleLevel_one_header_per_run :
    (∀ (field : FieldInstance) (rows : List GroupRow),
        consecDistinct (rows.map (rowValAt field)) = true →
        groupDbCollection2GroupPoints rows [field] =
          rows.flatMap (fun row =>
            [mkHeaderPoint field 0 (rowValAt field row), GroupPoint.row row.count]))
    ∧ (groupDbCollection2GroupPoints rowsC3 [statusField]).map shapeOf =
        [PointShape.header 0 (DbVal.str "A"), PointShape.row 2,
         PointShape.header 0 (DbVal.str "B"), PointShape.row 1] := by
  constructor
  · intro field rows hchain
    unfold groupDbCollection2GroupPoints
    exact processRows_single_runs field rows ⟨none, none⟩ hchain
      (fun row rest h => by simp)
  · decide

/-- Witness for C3: the spec's example rows satisfy the distinctness
hypothesis and decode to one header and one row marker per run. -/
theorem singleLevel_one_header_per_run_witness :
    groupDbCollection2GroupPoints rowsC3 [statusField] =
      rowsC3.flatMap (fun row =>
        [mkHeaderPoint statusField 0 (rowValAt statusField row), GroupPoint.row row.count]) :=
  singleLevel_one_header_per_run.1 statusField rowsC3 (by decide)

/-- Auxiliary for C10: at an index of at least 2, `stepField` always emits
the header (no run-length suppression, no state change). -/
theorem stepField_ge_two (row : GroupRow) (field : FieldInstance) (index : Nat)
    (st : DecodeState) (h2 : 2 ≤ index) :
    stepField row field index st =
      (some (mkHeaderPoint field index (rowValAt field row)), st) := by
  have h0 : index ≠ 0 := by omega
  have h1 : index ≠ 1 := by omega
  simp [stepField, rowValAt, h0, h1]

/-- Auxiliary for C10: `stepField` either suppresses or emits the header
for its own index, nothing else. -/
theorem stepField_fst_cases (row : GroupRow) (field : FieldInstance) (index : Nat)
    (st : DecodeState) :
    (stepField row field index st).1 = none
    ∨ (stepField row field index st).1 =
        some (mkHeaderPoint field index (rowValAt field row)) := by
  unfold stepField
  simp only [rowValAt]
  split_ifs <;> simp

/-- Auxiliary for C10: for a target depth of at least 2, one step
contributes one header at that depth exactly when its index is the
depth. -/
theorem countP_stepField (row : GroupRow) (field : FieldInstance) (index : Nat)
    (st : DecodeState) (d : Nat) (hd : 2 ≤ d) :
    ((stepField row field index st).1.toList).countP (isHeaderAtDepth d) =
      if index = d then 1 else 0 := by
  by_cases hkd : index = d
  · subst hkd
    rw [stepField_ge_two row field index st hd]
    simp [isHeaderAtDepth, mkHeaderPoint]
  · rcases stepField_fst_cases row field index st with h | h <;>
      rw [h] <;> simp [isHeaderAtDepth, mkHeaderPoint, hkd]

/-- Auxiliary for C10: processing the fields of one row enumerated from
`k` yields exactly one header at depth `d ≥ 2` when `d` falls in the index
range, and none otherwise, regardless of the incoming state. -/
theorem countP_processFields (row : GroupRow) (d : Nat) (hd : 2 ≤ d) :
    ∀ (fields : List FieldInstance) (k : Nat) (st : DecodeState),
      ((processFields row (List.enumFrom k fields) st).1).countP (isHeaderAtDepth d) =
        if k ≤ d ∧ d < k + fields.length then 1 else 0 := by
  intro fields
  induction fields with
  | nil =>
    intro k st
    have hcond : ¬(k ≤ d ∧ d < k + ([] : List FieldInstance).length) := by
      simp only [List.length_nil, Nat.add_zero]
      omega
    rw [if_neg hcond]
    rfl
  | cons f fs ih =>
    intro k st
    have henum : List.enumFrom k (f :: fs) = (k, f) :: List.enumFrom (k + 1) fs := rfl
    rw [henum]
    show ((stepField row f k st).1.toList ++
        (processFields row (List.enumFrom (k + 1) fs) (stepField row f k st).2).1).countP
        (isHeaderAtDepth d) = _
    rw [List.countP_append, countP_stepField row f k st d hd,
      ih (k + 1) (stepField row f k st).2]
    by_cases hkd : k = d
    · subst hkd
      have hc2 : ¬(k + 1 ≤ k ∧ k < k + 1 + fs.length) := by omega
      have hc3 : k ≤ k ∧ k < k + (fs.length + 1) := by omega
      simp [hc2, hc3]
    · have hiff : (k + 1 ≤ d ∧ d < k + 1 + fs.length) ↔
          (k ≤ d ∧ d < k + (f :: fs).length) := by
        simp only [List.length_cons]
        omega
      simp only [if_neg hkd, Nat.zero_add]
      rw [if_congr hiff rfl rfl]
  
/-- Auxiliary for C10: across whole rows, every row contributes exactly
one header at each depth `d` with `2 ≤ d < fields.length`. -/
theorem countP_processRows (fields : List FieldInstance) (d : Nat)
    (hd : 2 ≤ d) (hlen : d < fields.length) :
    ∀ (rows : List GroupRow) (st : DecodeState),
      (processRows fields rows st).countP (isHeaderAtDepth d) = rows.length := by
  intro rows
  induction rows with
  | nil => intro st; rfl
  | cons row rest ih =>
    intro st
    simp only [processRows]
    rw [List.countP_append, List.countP_append, ih]
    have henum : fields.enum = List.enumFrom 0 fields := rfl
    rw [henum, countP_processFields row d hd fields 0 st]
    have hcond : 0 ≤ d ∧ d < 0 + fields.length := by omega
    rw [if_pos hcond]
    simp [List.countP_cons, isHeaderAtDepth]
    omega

/-- Claim C10: run-length suppression and the sentinel reset apply only at
depths 0 and 1; for a group-by of three or more fields, a Header at depth
2 or deeper is emitted for every result row (one header at that depth per
row), even when the value at that depth repeats. -/
theorem depth_two_headers_every_row (rows : List GroupRow)
    (fields : List FieldInstance) (d : Nat) (hd : 2 ≤ d) (hlen : d < fields.length) :
    countHeadersAtDepth (groupDbCollection2GroupPoints rows fields) d = rows.length := by
  unfold countHeadersAtDepth groupDbCollection2GroupPoints
  exact countP_processRows fields d hd hlen rows ⟨none, none⟩

/-- Witness for C10: two rows sharing the same depth-2 value "P" still
produce two depth-2 headers (no suppression at depth 2). -/
theorem depth_two_headers_every_row_witness :
    countHeadersAtDepth
      (groupDbCollection2GroupPoints rowsC10 [categoryField, statusField, priorityField]) 2 =
      rowsC10.length :=
  depth_two_headers_every_row rowsC10 [categoryField, statusField, priorityField] 2
    (by decide) (by decide)
